import Mathlib

/-!
Verification of the zepto-couchdb client library (`zepto.touchdb.js`).

This file gives a shallow embedding of the parts of the library that carry
real behaviour — the change-feed subscription state machine built by
`changes(since, options)`, the `complete` handler of the `ajax` helper, the
process-wide UUID cache of `newUUID`, document-id encoding, and `bulkRemove` —
and proves the specified properties about them.

The change feed is event-driven JavaScript running on a single-threaded
event loop: at any moment a subscription has at most one outstanding
continuation (the initial `db.info` request, a `_changes` long-poll, or a
retry timer).  We model it as a step function from a subscription state and
an arriving event to the new state together with the ordered list of
observable actions the handler performs (listener invocations, request
issuance, timer scheduling).
-/

namespace ZeptoCouch

/-- A single change record in a `_changes` batch: document identifier,
latest revision tag, deletion flag. -/
structure ChangeRow where
  id : String
  rev : String
  deleted : Bool
deriving DecidableEq

/-- A successful `_changes` long-poll response: the new cursor (`last_seq`)
plus the ordered change records (`results`). -/
structure ChangesResp where
  last_seq : Nat
  results : List ChangeRow
deriving DecidableEq

/-- The single outstanding asynchronous continuation of a subscription:
the initial `db.info` metadata request, a `_changes` long-poll (recording
the `since` value it was issued with), or a retry timer scheduled by
`setTimeout(getChangesSince, timeout)`.  The code never has more than one
of these outstanding at a time; `idle` is the state after a response was
discarded or an exception was thrown with nothing re-issued. -/
inductive Pending where
  | idle
  | infoReq
  | pollReq (q : Nat)
  | timer (delay : Nat)
deriving DecidableEq

/-- The closure state of `changes(since, options)` (zepto.touchdb.js,
lines 256-327): the `since` cursor (`none` models the JavaScript
`undefined`), the retry `timeout` in milliseconds, the `active` flag, the
registered `listeners` (identified by registration tokens, in registration
order), and the outstanding continuation. -/
structure ChangesState where
  since : Option Nat
  timeout : Nat
  active : Bool
  listeners : List Nat
  pending : Pending
deriving DecidableEq

/-- External events a subscription can receive: completion of the
outstanding poll (success with a parsed response, or any failure), the two
completions of the initial metadata request, the retry timer firing, and
the two operations of the returned handle (`onChange`, `stop`). -/
inductive CEvent where
  | pollSucceeds (resp : ChangesResp)
  | pollFails
  | infoSucceeds (update_seq : Nat)
  | infoFails
  | timerFires
  | onChange (l : Nat)
  | stopCall
deriving DecidableEq

/-- Observable actions performed by one handler execution, in the order
the code performs them: invoking a listener with a batch, issuing a
`_changes` request with a given `since`, issuing the `db.info` request,
scheduling a retry timer with a given delay. -/
inductive COut where
  | invoke (l : Nat) (resp : ChangesResp)
  | issuePoll (q : Nat)
  | issueInfo
  | schedule (delay : Nat)
deriving DecidableEq

/-- One event-handler execution of `changes`, translated from
zepto.touchdb.js lines 256-327:

* `options.success(resp)`: sets `timeout = 100`; then, only `if (active)`,
  sets `since = resp.last_seq`, calls `triggerListeners(resp)` — which
  invokes every registered listener in registration order with `resp` —
  and then `getChangesSince()`, which issues the next poll with the
  updated `since`;
* `options.error()`: only `if (active)`, schedules
  `setTimeout(getChangesSince, timeout)` and then doubles `timeout`;
* the `db.info` success handler sets `since = info.update_seq` and calls
  `getChangesSince()` unconditionally — it performs no `active` check;
* a failing `db.info` request has no error handler, so `ajax` throws and
  nothing further happens for this subscription;
* a fired retry timer runs `getChangesSince()` unconditionally, issuing a
  poll with the current `since`;
* `onChange(l)` pushes a listener; `stop()` sets `active = false`.

An event that does not match the outstanding continuation (a completion
for a request that is not in flight) cannot occur on the event loop and is
a no-op. -/
def step (s : ChangesState) (e : CEvent) : ChangesState × List COut :=
  match e, s.pending with
  | .pollSucceeds resp, .pollReq _ =>
      if s.active then
        ({ s with timeout := 100, since := some resp.last_seq,
                  pending := .pollReq resp.last_seq },
         s.listeners.map (fun l => .invoke l resp) ++ [.issuePoll resp.last_seq])
      else
        ({ s with timeout := 100, pending := .idle }, [])
  | .pollFails, .pollReq _ =>
      if s.active then
        ({ s with timeout := 2 * s.timeout, pending := .timer s.timeout },
         [.schedule s.timeout])
      else
        ({ s with pending := .idle }, [])
  | .infoSucceeds u, .infoReq =>
      ({ s with since := some u, pending := .pollReq u }, [.issuePoll u])
  | .infoFails, .infoReq =>
      ({ s with pending := .idle }, [])
  | .timerFires, .timer _ =>
      ({ s with pending := .pollReq (s.since.getD 0) },
       [.issuePoll (s.since.getD 0)])
  | .onChange l, _ => ({ s with listeners := s.listeners ++ [l] }, [])
  | .stopCall, _ => ({ s with active := false }, [])
  | _, _ => (s, [])

/-- JavaScript truthiness of the optional numeric `since` argument as
tested by `if (since)`: `undefined` and `0` are falsy. -/
def sinceTruthy : Option Nat → Bool
  | none => false
  | some n => n != 0

/-- Subscription creation, `changes(since, options)`: initialisation of
the closure state (`timeout = 100`, `active = true`, empty listener list)
and the first dispatch — `if (since) getChangesSince(); else
db.info({success: ...})`. -/
def initChanges (since : Option Nat) : ChangesState × List COut :=
  let base : ChangesState :=
    { since := since, timeout := 100, active := true, listeners := [],
      pending := .idle }
  if sinceTruthy since then
    ({ base with pending := .pollReq (since.getD 0) },
     [.issuePoll (since.getD 0)])
  else
    ({ base with pending := .infoReq }, [.issueInfo])

/-- Run a subscription state through a list of events. -/
def runEvents (s : ChangesState) : List CEvent → ChangesState
  | [] => s
  | e :: es => runEvents (step s e).1 es

/-- All observable actions produced while running through a list of
events, in order. -/
def runOuts (s : ChangesState) : List CEvent → List COut
  | [] => []
  | e :: es => (step s e).2 ++ runOuts (step s e).1 es

/-- One complete failure cycle: the outstanding poll fails, then the
scheduled retry timer fires, re-issuing the poll. -/
def failCycle (s : ChangesState) : ChangesState :=
  (step (step s .pollFails).1 .timerFires).1

/-- The long-poll server contract along a trace: every successful poll
response carries a `last_seq` at least the cursor the subscription holds
when the response arrives. -/
def goodTrace (s : ChangesState) : List CEvent → Bool
  | [] => true
  | e :: es =>
    (match e with
     | .pollSucceeds resp => decide (s.since.getD 0 ≤ resp.last_seq)
     | _ => true) && goodTrace (step s e).1 es

/-- Outcome of the `complete` handler of `ajax`: the caller's success
callback is reached with the parsed payload, the caller's error callback
is reached, or an exception is thrown because no error handler was
supplied. -/
inductive AjaxOutcome (R : Type) where
  | success (resp : R)
  | errorCb
  | fatal
deriving DecidableEq

/-- The `complete` handler installed by `ajax` (zepto.touchdb.js lines
851-876), with the response body modelled by its parse result (`none`
when `JSON.parse(req.responseText)` throws): on a parse failure, call
`options.error` if the caller supplied one and otherwise throw the error
message; on a parsed body, dispatch to `options.success` when the status
equals `options.successStatus` (defaulted to 200 by the caller-options
merge), else to `options.error` when present, else throw. -/
def ajaxComplete (successStatus : Nat) (hasError : Bool) (status : Nat)
    (parsed : Option R) : AjaxOutcome R :=
  match parsed with
  | none => if hasError then .errorCb else .fatal
  | some resp =>
    if status = successStatus then .success resp
    else if hasError then .errorCb else .fatal

/-- The `successStatus` default applied by
`options = $.extend({successStatus: 200}, options)`. -/
def defaultSuccessStatus (o : Option Nat) : Nat := o.getD 200

/-- `newUUID(cacheNum)` (zepto.touchdb.js lines 810-825) acting on the
process-wide `uuidCache` list: `fetch` models the synchronous `/_uuids`
request (`data: {count: cacheNum}`, `async: false`), returning the
fetched identifier list, or `none` when the request fails — in which
case `ajax`, given no error handler, throws, so `newUUID` produces no
value at all and the overall result is `none`.  Otherwise the result
carries `uuidCache.shift()` (the removed first identifier, if any), the
remaining cache, and `some count` when a fetch was performed (`none`
when the cache was hit). -/
def newUUID (fetch : Nat → Option (List String)) (cache : List String)
    (cacheNum : Option Nat) :
    Option (Option String × List String × Option Nat) :=
  let n := cacheNum.getD 1
  if cache.isEmpty then
    match fetch n with
    | some uuids => some (uuids.head?, uuids.tail, some n)
    | none => none
  else
    some (cache.head?, cache.tail, none)

/-- Upper-case hexadecimal digit, as produced by `encodeURIComponent`. -/
def hexDigit (n : Nat) : Char :=
  if n < 10 then Char.ofNat (48 + n) else Char.ofNat (55 + n)

/-- The `%XX` escape of one byte. -/
def percentByte (b : Nat) : List Char :=
  ['%', hexDigit (b / 16), hexDigit (b % 16)]

/-- UTF-8 bytes of a character's code point. -/
def utf8Bytes (c : Char) : List Nat :=
  let n := c.toNat
  if n < 128 then [n]
  else if n < 2048 then [192 + n / 64, 128 + n % 64]
  else if n < 65536 then [224 + n / 4096, 128 + n / 64 % 64, 128 + n % 64]
  else [240 + n / 262144, 128 + n / 4096 % 64, 128 + n / 64 % 64,
        128 + n % 64]

/-- The characters `encodeURIComponent` leaves unescaped:
ASCII letters and digits and `- _ . ! ~ * ' ( )`. -/
def uriUnreserved (c : Char) : Bool :=
  c.isAlpha || c.isDigit || c == '-' || c == '_' || c == '.' || c == '!' ||
    c == '~' || c == '*' || c == '\'' || c == '(' || c == ')'

/-- The characters one input character contributes to the output of
`encodeURIComponent`: itself when unreserved, otherwise the `%XX` escapes
of its UTF-8 bytes. -/
def encodeCharUri (c : Char) : List Char :=
  if uriUnreserved c then [c] else ((utf8Bytes c).map percentByte).flatten

/-- JavaScript's `encodeURIComponent`. -/
def encodeURIComponent (s : String) : String :=
  ⟨(s.data.map encodeCharUri).flatten⟩

/-- JavaScript `str.split(sep)` for a one-character separator, on the
character list of the string: splits at every occurrence, keeping empty
segments, and yields `[[]]` for the empty string.  The result is always
non-empty. -/
def splitChar (sep : Char) : List Char → List (List Char)
  | [] => [[]]
  | c :: cs =>
    match splitChar sep cs with
    | [] => [[]]
    | s :: ss => if c = sep then [] :: s :: ss else (c :: s) :: ss

/-- JavaScript `parts.join(sep)` for a one-character separator. -/
def joinChar (sep : Char) : List (List Char) → List Char
  | [] => []
  | [s] => s
  | s :: ss => s ++ sep :: joinChar sep ss

/-- `encodeDocId` (zepto.touchdb.js lines 45-52): split the id on `/`;
when the first segment is `_design`, drop it (`parts.shift()`) and
return the literal prefix `_design/` followed by the percent-encoding of
the re-joined (`parts.join('/')`) remainder; otherwise percent-encode
the whole id. -/
def encodeDocId (docID : String) : String :=
  let parts := splitChar '/' docID.data
  if parts.head? = some "_design".data then
    "_design/" ++ encodeURIComponent ⟨joinChar '/' parts.tail⟩
  else
    encodeURIComponent docID

/-- A document as passed to `bulkRemove`: its `_deleted` field (`none`
when absent) and its remaining fields, kept abstract. -/
structure BDoc (α : Type) where
  deleted : Option Bool
  rest : α
deriving DecidableEq

/-- The `docs` argument of `bulkRemove`, the object serialised as the
`_bulk_docs` request body. -/
structure BulkDocs (α : Type) where
  docs : List (BDoc α)
deriving DecidableEq

/-- Abstract outcome of the `_bulk_docs` request. -/
inductive ReqOutcome where
  | succeeded
  | failed (status : Nat)
deriving DecidableEq

/-- `bulkRemove(docs, options)` (zepto.touchdb.js lines 556-571): before
issuing the POST it mutates each element of the caller-supplied
`docs.docs` in place, setting `_deleted = true`; the request body is
`toJSON(docs)` of the mutated object.  The result is the pair of the
caller-visible `docs` value after the call and the request body; the
request outcome is a parameter precisely because neither depends on it. -/
def bulkRemove (docs : BulkDocs α) (_outcome : ReqOutcome) :
    BulkDocs α × BulkDocs α :=
  let mutated : BulkDocs α :=
    ⟨docs.docs.map fun d => { d with deleted := some true }⟩
  (mutated, mutated)

/-- Once `active` is false it stays false: no event handler sets it back. -/
theorem active_false_step (s : ChangesState) (e : CEvent)
    (h : s.active = false) : (step s e).1.active = false := by
  cases e <;> cases hp : s.pending <;> simp [step, hp, h]

/-- A single step invokes a listener only on the success path of a poll
while `active` is true, and the payload it delivers is exactly that
successful response. -/
theorem invoke_step_active (s : ChangesState) (e : CEvent) (l : Nat)
    (r : ChangesResp) (h : COut.invoke l r ∈ (step s e).2) :
    s.active = true ∧ e = .pollSucceeds r := by
  cases e <;> cases hp : s.pending <;>
    simp only [step, hp] at h <;> try simp at h
  case pollSucceeds.pollReq resp q =>
    by_cases ha : s.active = true
    · simp only [ha, if_true, List.mem_append, List.mem_map,
        List.mem_singleton] at h
      rcases h with ⟨l', _, hl⟩ | h
      · cases hl
        exact ⟨ha, rfl⟩
      · cases h
    · simp [ha] at h
  case pollFails.pollReq q =>
    by_cases ha : s.active = true <;> simp [ha] at h

/-- C2: for every subscription, a listener is invoked only from the
success path of a poll while the `active` flag is true — after `stop()`
no listener is ever invoked again, whatever events (including in-flight
responses) still arrive — and a failed poll never invokes a listener, so
listeners only ever receive successful batch payloads. -/
theorem listeners_only_success_while_active :
    (∀ (s : ChangesState) (e : CEvent) (l : Nat) (r : ChangesResp),
      COut.invoke l r ∈ (step s e).2 → s.active = true ∧ e = .pollSucceeds r) ∧
    (∀ (s : ChangesState) (tr : List CEvent) (l : Nat) (r : ChangesResp),
      s.active = false → COut.invoke l r ∉ runOuts s tr) := by
  refine ⟨invoke_step_active, ?_⟩
  intro s tr
  induction tr generalizing s with
  | nil => intro l r _ h; cases h
  | cons e es ih =>
    intro l r hs h
    rcases List.mem_append.mp h with h | h
    · exact absurd (invoke_step_active s e l r h).1 (by simp [hs])
    · exact ih (step s e).1 l r (active_false_step s e hs) h

/-- C2 witness: a concrete active subscription with one listener receives
an invocation from a successful poll. -/
theorem listeners_only_success_while_active_witness :
    ({ since := some 1, timeout := 100, active := true, listeners := [7],
       pending := .pollReq 1 } : ChangesState).active = true ∧
      CEvent.pollSucceeds ⟨2, []⟩ = CEvent.pollSucceeds ⟨2, []⟩ :=
  listeners_only_success_while_active.1
    { since := some 1, timeout := 100, active := true, listeners := [7],
      pending := .pollReq 1 }
    (.pollSucceeds ⟨2, []⟩) 7 ⟨2, []⟩ (by decide)

/-- C4: a batch received while the subscription is active is delivered to
every listener registered at the time of delivery exactly once each, in
registration order, and all these invocations come before the issuing of
the next poll: the step's output is precisely the invocation of each
registered listener in list order followed by the next poll request. -/
theorem batch_delivery (s : ChangesState) (resp : ChangesResp) (q : Nat)
    (hp : s.pending = .pollReq q) (ha : s.active = true) :
    (step s (.pollSucceeds resp)).2
      = s.listeners.map (fun l => COut.invoke l resp)
          ++ [COut.issuePoll resp.last_seq] := by
  simp [step, hp, ha]

/-- C4 witness: with listeners `[3, 5]` registered, a successful poll
invokes 3 then 5 with the batch and then issues the next poll. -/
theorem batch_delivery_witness :
    (step { since := some 4, timeout := 100, active := true,
            listeners := [3, 5], pending := .pollReq 4 }
          (.pollSucceeds ⟨9, []⟩)).2
      = ([3, 5].map (fun l => COut.invoke l ⟨9, []⟩))
          ++ [COut.issuePoll (9 : Nat)] :=
  batch_delivery
    { since := some 4, timeout := 100, active := true, listeners := [3, 5],
      pending := .pollReq 4 }
    ⟨9, []⟩ 4 rfl rfl

/-- C1 counterexample: start a subscription without a cursor, call
`stop()`, then let the initial `db.info` response arrive — the success
handler at lines 319-324 performs no `active` check, so a `_changes`
poll is issued after `stop()`, contradicting the claim that the info
completion arriving after `stop()` issues no poll. -/
theorem poll_issued_after_stop_cex :
    (step (step (initChanges none).1 .stopCall).1 (.infoSucceeds 10)).2
      = [COut.issuePoll 10] ∧
    (step (initChanges none).1 .stopCall).1.active = false := by
  constructor <;> rfl

/-- C1 (amended): once `stop()` has been called the subscription stays
stopped forever; the success or error completion of an in-flight poll
produces no output at all (its response is discarded, nothing is
re-issued); the only outputs any remaining event can produce are
`_changes` poll issuances, and only from the initial metadata response
arriving after `stop()` or an already-scheduled retry timer firing. -/
theorem stopped_subscription (s : ChangesState) (e : CEvent)
    (h : s.active = false) :
    (step s e).1.active = false ∧
    (∀ resp, (step s (.pollSucceeds resp)).2 = []) ∧
    (step s .pollFails).2 = [] ∧
    (∀ o ∈ (step s e).2, ∃ u, o = COut.issuePoll u ∧
        (e = .infoSucceeds u ∨ e = .timerFires)) := by
  refine ⟨active_false_step s e h, ?_, ?_, ?_⟩
  · intro resp; cases hp : s.pending <;> simp [step, hp, h]
  · cases hp : s.pending <;> simp [step, hp, h]
  · intro o ho
    cases e <;> cases hp : s.pending <;> simp [step, hp, h] at ho <;>
      simp [ho]

/-- C1 witness: a concrete stopped subscription whose pending metadata
request completes. -/
theorem stopped_subscription_witness :
    (step { since := none, timeout := 100, active := false, listeners := [],
            pending := .infoReq } (.infoSucceeds 4)).1.active = false ∧
    (∀ resp,
      (step { since := none, timeout := 100, active := false, listeners := [],
              pending := .infoReq } (.pollSucceeds resp)).2 = []) ∧
    (step { since := none, timeout := 100, active := false, listeners := [],
            pending := .infoReq } .pollFails).2 = [] ∧
    (∀ o ∈ (step { since := none, timeout := 100, active := false,
                   listeners := [], pending := .infoReq }
              (.infoSucceeds 4)).2,
      ∃ u, o = COut.issuePoll u ∧
        (CEvent.infoSucceeds 4 = CEvent.infoSucceeds u ∨
          CEvent.infoSucceeds 4 = CEvent.timerFires)) :=
  stopped_subscription
    { since := none, timeout := 100, active := false, listeners := [],
      pending := .infoReq }
    (.infoSucceeds 4) rfl

/-- Effect of a failure cycle on an active subscription with an
outstanding poll: the timeout doubles and the poll is re-issued with the
current cursor; nothing else changes. -/
theorem failCycle_eq (s : ChangesState) (q : Nat) (ha : s.active = true)
    (hp : s.pending = .pollReq q) :
    failCycle s
      = { s with timeout := 2 * s.timeout,
                 pending := .pollReq (s.since.getD 0) } := by
  simp [failCycle, step, hp, ha]

/-- Iterating failure cycles from an active subscription holding cursor
`q` keeps it active on the same cursor and doubles the timeout each time. -/
theorem iterate_failCycle (s : ChangesState) (q : Nat)
    (ha : s.active = true) (hp : s.pending = .pollReq q)
    (hs : s.since = some q) : ∀ n : Nat,
    (failCycle^[n] s).active = true ∧
    (failCycle^[n] s).pending = .pollReq q ∧
    (failCycle^[n] s).since = some q ∧
    (failCycle^[n] s).timeout = 2 ^ n * s.timeout := by
  intro n
  induction n with
  | zero => simp [ha, hp, hs]
  | succ n ih =>
    obtain ⟨iha, ihp, ihs, iht⟩ := ih
    rw [Function.iterate_succ_apply', failCycle_eq _ q iha ihp]
    refine ⟨iha, ?_, ihs, ?_⟩
    · simp [ihs]
    · simp [iht]; ring

/-- C3: the retry delay starts at the base value 100; a poll failure
while active schedules the retry after exactly the current delay, then
doubles the delay, leaving the cursor untouched, and the retry polls the
very cursor the failed request carried; any successful poll resets the
delay to 100; and after `n` prior complete failure cycles starting from
the base delay, the next failure waits `100 * 2 ^ n` — i.e. the n-th
consecutive failure waits `100 * 2 ^ (n - 1)`, with no upper cap. -/
theorem backoff_policy :
    (∀ c, (initChanges c).1.timeout = 100) ∧
    (∀ (s : ChangesState) (q : Nat), s.active = true → s.pending = .pollReq q →
      (step s .pollFails).2 = [COut.schedule s.timeout] ∧
      (step s .pollFails).1.timeout = 2 * s.timeout ∧
      (step s .pollFails).1.since = s.since ∧
      (s.since = some q →
        (step (step s .pollFails).1 .timerFires).2 = [COut.issuePoll q])) ∧
    (∀ (s : ChangesState) (resp : ChangesResp) (q : Nat),
      s.pending = .pollReq q →
      (step s (.pollSucceeds resp)).1.timeout = 100) ∧
    (∀ (s : ChangesState) (q n : Nat), s.active = true →
      s.pending = .pollReq q → s.since = some q → s.timeout = 100 →
      (step (failCycle^[n] s) .pollFails).2
        = [COut.schedule (100 * 2 ^ n)]) := by
  refine ⟨?_, ?_, ?_, ?_⟩
  · intro c
    by_cases h : sinceTruthy c = true <;> simp [initChanges, h]
  · intro s q ha hp
    refine ⟨by simp [step, hp, ha], by simp [step, hp, ha],
      by simp [step, hp, ha], ?_⟩
    intro hs
    simp [step, hp, ha, hs]
  · intro s resp q hp
    by_cases ha : s.active = true <;> simp [step, hp, ha]
  · intro s q n ha hp hs ht
    obtain ⟨iha, ihp, _, iht⟩ := iterate_failCycle s q ha hp hs n
    simp [step, ihp, iha, iht, ht, Nat.mul_comm]

/-- C3 witness: from a fresh active subscription at cursor 5, after two
complete failure cycles the third failure schedules its retry after
`100 * 2 ^ 2 = 400`. -/
theorem backoff_policy_witness :
    (step (failCycle^[2]
        { since := some 5, timeout := 100, active := true, listeners := [],
          pending := .pollReq 5 }) .pollFails).2
      = [COut.schedule (100 * 2 ^ 2)] :=
  backoff_policy.2.2.2
    { since := some 5, timeout := 100, active := true, listeners := [],
      pending := .pollReq 5 }
    5 2 rfl rfl rfl rfl

/-- C5 counterexample: a supplied starting cursor of `0` is falsy in
JavaScript, so `if (since)` takes the metadata branch — `changes(0,
options)` first issues the `db.info` request instead of polling
immediately with `since = 0`, contradicting the claim for supplied
cursors. -/
theorem startCursor_zero_cex :
    (initChanges (some 0)).2 = [COut.issueInfo] ∧
    (initChanges (some 0)).2 ≠ [COut.issuePoll 0] ∧
    (initChanges (some 0)).1.pending = .infoReq := by
  refine ⟨rfl, by decide, rfl⟩

/-- C5 (amended): if the starting cursor is supplied and truthy (a
nonzero sequence) the subscription immediately issues its first long-poll
with `since` equal to that cursor; if it is omitted — or falsy, such as
`0` — the subscription first issues the database-metadata request, and
that request's success sets the cursor to the returned `update_seq` and
only then issues the first long-poll with `since` equal to that value. -/
theorem initial_dispatch :
    (∀ c : Nat, c ≠ 0 →
      initChanges (some c)
        = ({ since := some c, timeout := 100, active := true,
             listeners := [], pending := .pollReq c },
           [COut.issuePoll c])) ∧
    (∀ c : Option Nat, sinceTruthy c = false →
      (initChanges c).2 = [COut.issueInfo] ∧
      (initChanges c).1.pending = .infoReq ∧
      ∀ u, step (initChanges c).1 (.infoSucceeds u)
        = ({ (initChanges c).1 with since := some u, pending := .pollReq u },
           [COut.issuePoll u])) := by
  constructor
  · intro c hc
    simp [initChanges, sinceTruthy, hc]
  · intro c hc
    refine ⟨by simp [initChanges, hc], by simp [initChanges, hc], ?_⟩
    intro u
    simp [initChanges, hc, step]

/-- C5 witness: a supplied cursor 10 polls immediately with since 10. -/
theorem initial_dispatch_witness :
    initChanges (some 10)
      = ({ since := some 10, timeout := 100, active := true, listeners := [],
           pending := .pollReq 10 }, [COut.issuePoll (10 : Nat)]) :=
  initial_dispatch.1 10 (by decide)

/-- No event handler ever re-issues the metadata request. -/
theorem step_no_infoReq (s : ChangesState) (e : CEvent)
    (h : s.pending ≠ .infoReq) : (step s e).1.pending ≠ .infoReq := by
  cases e <;> cases hp : s.pending <;> by_cases ha : s.active = true <;>
    simp [step, hp, ha] at h ⊢

/-- One step never decreases the cursor, provided a successful poll obeys
the server contract and no metadata request is outstanding (the metadata
handler overwrites the cursor unconditionally). -/
theorem step_cursor_mono (s : ChangesState) (e : CEvent)
    (hinfo : s.pending ≠ .infoReq)
    (hg : ∀ resp, e = .pollSucceeds resp → s.since.getD 0 ≤ resp.last_seq) :
    s.since.getD 0 ≤ (step s e).1.since.getD 0 := by
  cases e <;> cases hp : s.pending <;> by_cases ha : s.active = true <;>
    simp [step, hp, ha] at hinfo ⊢ <;> exact hg _ rfl

/-- C6 counterexample: starting from a supplied cursor 5 and a successful
poll whose response carries `last_seq = 3`, the code installs 3 as the
new cursor with no caller override — the cursor regresses from 5 to 3,
so monotonicity fails on the code as claimed. -/
theorem cursor_regress_cex :
    (initChanges (some 5)).1.since = some 5 ∧
    (runEvents (initChanges (some 5)).1 [.pollSucceeds ⟨3, []⟩]).since
      = some 3 ∧
    (3 : Nat) < 5 := by
  refine ⟨rfl, rfl, by decide⟩

/-- C6 (amended): the success handler installs `resp.last_seq` as the new
cursor with no comparison, so monotonicity holds exactly under the
long-poll server contract that each successful response's `last_seq` is
at least the currently-held cursor; under that contract, for any trace of
events after initialisation (no metadata request outstanding), the cursor
never decreases. -/
theorem cursor_monotone (s : ChangesState) (tr : List CEvent)
    (hinfo : s.pending ≠ .infoReq) (hg : goodTrace s tr = true) :
    s.since.getD 0 ≤ (runEvents s tr).since.getD 0 := by
  induction tr generalizing s with
  | nil => simp [runEvents]
  | cons e es ih =>
    simp only [goodTrace, Bool.and_eq_true] at hg
    refine le_trans (step_cursor_mono s e hinfo ?_)
      (ih (step s e).1 (step_no_infoReq s e hinfo) hg.2)
    intro resp he
    subst he
    simpa using hg.1

/-- C6 witness: two contract-obeying successful polls from cursor 5 never
decrease the cursor. -/
theorem cursor_monotone_witness :
    ((initChanges (some 5)).1.since.getD 0 : Nat)
      ≤ (runEvents (initChanges (some 5)).1
          [.pollSucceeds ⟨7, []⟩, .pollSucceeds ⟨9, []⟩]).since.getD 0 :=
  cursor_monotone (initChanges (some 5)).1
    [.pollSucceeds ⟨7, []⟩, .pollSucceeds ⟨9, []⟩]
    (by decide) (by decide)

/-- C7: a response whose status equals the expected success status but
whose body fails to parse is reported through the caller's error handler,
never the success handler; with no error handler supplied the failure is
a thrown exception, not silently swallowed. -/
theorem decode_failure_reported (R : Type) (successStatus status : Nat)
    (hasError : Bool) (hs : status = successStatus) :
    (∀ r : R,
      ajaxComplete successStatus hasError status (none : Option R)
        ≠ .success r) ∧
    (hasError = true →
      ajaxComplete successStatus hasError status (none : Option R)
        = .errorCb) ∧
    (hasError = false →
      ajaxComplete successStatus hasError status (none : Option R)
        = .fatal) := by
  cases hasError <;> simp [ajaxComplete]

/-- C7 witness: a 200 response matching the default expected status with
an unparsable body and an error handler present. -/
theorem decode_failure_reported_witness :
    (∀ r : Nat,
      ajaxComplete 200 true 200 (none : Option Nat) ≠ .success r) ∧
    (true = true → ajaxComplete 200 true 200 (none : Option Nat) = .errorCb) ∧
    (true = false → ajaxComplete 200 true 200 (none : Option Nat) = .fatal) :=
  decode_failure_reported Nat 200 200 true rfl

/-- C8: a non-empty cache is consumed without any fetch — the first
cached identifier is removed and returned and the cache shrinks by
exactly one; an empty cache triggers exactly one fetch for `cacheNum`
identifiers (1 when `cacheNum` is undefined), the cache is replaced by
the fetched identifiers minus the first, which is returned; a failed
fetch yields no value at all (the thrown error), never a cached
fallback. -/
theorem newUUID_cache (fetch : Nat → Option (List String))
    (cache : List String) (cacheNum : Option Nat) :
    (cache ≠ [] →
      newUUID fetch cache cacheNum = some (cache.head?, cache.tail, none) ∧
      cache.tail.length + 1 = cache.length) ∧
    (∀ uuids, cache = [] → fetch (cacheNum.getD 1) = some uuids →
      newUUID fetch cache cacheNum
        = some (uuids.head?, uuids.tail, some (cacheNum.getD 1))) ∧
    (cache = [] → fetch (cacheNum.getD 1) = none →
      newUUID fetch cache cacheNum = none) := by
  refine ⟨?_, ?_, ?_⟩
  · intro h
    cases cache with
    | nil => exact absurd rfl h
    | cons a t => exact ⟨by simp [newUUID], by simp⟩
  · intro uuids hc hf
    subst hc
    simp [newUUID, hf]
  · intro hc hf
    subst hc
    simp [newUUID, hf]

/-- C8 witness: a two-element cache is consumed without fetching. -/
theorem newUUID_cache_witness :
    newUUID (fun k => some (List.replicate k "u")) ["a", "b"] none
        = some ((["a", "b"] : List String).head?,
            (["a", "b"] : List String).tail, none) ∧
      (["a", "b"] : List String).tail.length + 1
        = (["a", "b"] : List String).length :=
  (newUUID_cache (fun k => some (List.replicate k "u")) ["a", "b"] none).1
    (by decide)

/-- Hex digits are never a slash. -/
theorem hexDigit_ne_slash : ∀ n < 16, hexDigit n ≠ '/' := by decide

/-- Every character code point is below `0x110000`. -/
theorem char_toNat_lt (c : Char) : c.toNat < 1114112 := by
  have h := c.valid
  have ht : c.toNat = c.val.toNat := rfl
  rcases h with h | h <;> omega

/-- UTF-8 encoding produces bytes. -/
theorem utf8Bytes_lt (c : Char) : ∀ b ∈ utf8Bytes c, b < 256 := by
  have hc := char_toNat_lt c
  intro b hb
  simp only [utf8Bytes] at hb
  split at hb
  · simp at hb; omega
  · split at hb
    · simp at hb; omega
    · split at hb <;> simp at hb <;> omega

/-- A `%XX` escape of a byte contains no slash. -/
theorem percentByte_ne_slash (b : Nat) (hb : b < 256) :
    ∀ x ∈ percentByte b, x ≠ '/' := by
  intro x hx
  simp only [percentByte, List.mem_cons, List.not_mem_nil, or_false] at hx
  rcases hx with hx | hx | hx
  · subst hx; decide
  · subst hx; exact hexDigit_ne_slash _ (by omega)
  · subst hx; exact hexDigit_ne_slash _ (by omega)

/-- The output characters contributed by one input character never
include a slash: `/` is not an unreserved character, and escapes are
made of `%` and hex digits. -/
theorem encodeCharUri_ne_slash (c : Char) :
    ∀ x ∈ encodeCharUri c, x ≠ '/' := by
  intro x hx
  unfold encodeCharUri at hx
  split at hx
  · next hres =>
    simp at hx
    subst hx
    intro h
    subst h
    exact absurd hres (by decide)
  · rcases List.mem_flatten.mp hx with ⟨l, hl, hxl⟩
    rcases List.mem_map.mp hl with ⟨b, hb, rfl⟩
    exact percentByte_ne_slash b (utf8Bytes_lt c b hb) x hxl

/-- `encodeURIComponent` output never contains a raw slash. -/
theorem encodeURIComponent_ne_slash (s : String) :
    ∀ x ∈ (encodeURIComponent s).data, x ≠ '/' := by
  intro x hx
  simp only [encodeURIComponent] at hx
  rcases List.mem_flatten.mp hx with ⟨l, hl, hxl⟩
  rcases List.mem_map.mp hl with ⟨c, _, rfl⟩
  exact encodeCharUri_ne_slash c x hxl

/-- C9: a document id whose first `/`-separated segment is `_design` is
encoded as the unencoded prefix `_design/` followed by the
percent-encoding of the re-joined remainder, in which every `/`
separator is percent-encoded (a slash encodes to `%2F` and no raw slash
survives encoding); any other id is percent-encoded whole. -/
theorem encodeDocId_design (docID : String) :
    ((splitChar '/' docID.data).head? = some "_design".data →
      encodeDocId docID
        = "_design/"
            ++ encodeURIComponent
                ⟨joinChar '/' (splitChar '/' docID.data).tail⟩ ∧
      ∀ c ∈ (encodeURIComponent
              ⟨joinChar '/' (splitChar '/' docID.data).tail⟩).data,
        c ≠ '/') ∧
    ((splitChar '/' docID.data).head? ≠ some "_design".data →
      encodeDocId docID = encodeURIComponent docID) ∧
    encodeURIComponent "/" = "%2F" := by
  refine ⟨?_, ?_, ?_⟩
  · intro h
    exact ⟨by simp [encodeDocId, h], encodeURIComponent_ne_slash _⟩
  · intro h
    simp [encodeDocId, h]
  · rfl

/-- C9 witness: a design-document id with a slash in the remainder. -/
theorem encodeDocId_design_witness :
    encodeDocId "_design/a/b"
        = "_design/"
            ++ encodeURIComponent
                ⟨joinChar '/' (splitChar '/' "_design/a/b".data).tail⟩ ∧
      ∀ c ∈ (encodeURIComponent
              ⟨joinChar '/' (splitChar '/' "_design/a/b".data).tail⟩).data,
        c ≠ '/' :=
  (encodeDocId_design "_design/a/b").1 (by decide)

/-- C10: `bulkRemove` mutates its caller-supplied input — after the call
every document in `docs.docs` carries `_deleted = true` with all other
fields untouched, the issued request body holds exactly those mutated
documents, and the caller-visible result is the same whatever the
request outcome. -/
theorem bulkRemove_mutates (α : Type) (docs : BulkDocs α)
    (outcome : ReqOutcome) :
    ((bulkRemove docs outcome).1.docs
        = docs.docs.map fun d => { d with deleted := some true }) ∧
    ((bulkRemove docs outcome).1.docs.map BDoc.deleted
        = docs.docs.map fun _ => some true) ∧
    ((bulkRemove docs outcome).1.docs.map BDoc.rest
        = docs.docs.map BDoc.rest) ∧
    ((bulkRemove docs outcome).2 = (bulkRemove docs outcome).1) ∧
    (∀ o2, (bulkRemove docs outcome).1 = (bulkRemove docs o2).1) := by
  refine ⟨rfl, ?_, ?_, rfl, fun o2 => rfl⟩
  · calc (bulkRemove docs outcome).1.docs.map BDoc.deleted
        = (docs.docs.map fun d => { d with deleted := some true }).map
            BDoc.deleted := rfl
      _ = docs.docs.map fun _ => some true := by rw [List.map_map]; rfl
  · calc (bulkRemove docs outcome).1.docs.map BDoc.rest
        = (docs.docs.map fun d => { d with deleted := some true }).map
            BDoc.rest := rfl
      _ = docs.docs.map BDoc.rest := by rw [List.map_map]; rfl

end ZeptoCouch
